import Mathlib

/-!
Verification of the cache/fallback-fetch core and the message handlers of the
cineflow Telegram bot (`src/bot.js`), shallowly embedded in Lean.

The JS `Map` cache is embedded as an insertion-ordered association list, the
network (`axios.get` with a timeout) as a function `String → Nat → Option α`
from request URL and timeout in milliseconds to an optional response, and
`Date.now()` as an explicit `now : Int` parameter in milliseconds.
-/

namespace Cineflow

variable {α : Type}

/-- One stored cache value, `{ time: now, data: res }` in `bot.js`. -/
structure CacheEntry (α : Type) where
  time : Int
  data : α
deriving DecidableEq

/-- The JS `Map` named `CACHE` in `bot.js`, as an insertion-ordered association
list from URL to entry. -/
abbrev Cache (α : Type) := List (String × CacheEntry α)

/-- `const CACHE_TTL = 10 * 60 * 1000` (bot.js line 9). -/
def CACHE_TTL : Int := 10 * 60 * 1000

/-- `CACHE.get(url)` (also deciding `CACHE.has(url)` by whether it is `some`). -/
def getEntry : Cache α → String → Option (CacheEntry α)
  | [], _ => none
  | p :: c, url => if p.1 = url then some p.2 else getEntry c url

/-- `CACHE.delete(url)` (bot.js line 18). -/
def delEntry : Cache α → String → Cache α
  | [], _ => []
  | p :: c, url => if p.1 = url then delEntry c url else p :: delEntry c url

/-- `CACHE.set(url, e)`: a JS `Map.set` overwrites in place when the key is
present (keeping insertion order) and appends at the end otherwise. -/
def setEntry : Cache α → String → CacheEntry α → Cache α
  | [], url, e => [(url, e)]
  | p :: c, url, e => if p.1 = url then (url, e) :: c else p :: setEntry c url e

/-! ### `encodeURIComponent`

The JS builtin percent-encodes every UTF-8 byte of every character outside
`A-Z a-z 0-9 - _ . ! ~ * ' ( )`, with uppercase hex digits. -/

/-- UTF-8 bytes of a Unicode code point, as natural numbers. -/
def utf8Bytes (n : Nat) : List Nat :=
  if n < 128 then [n]
  else if n < 2048 then [192 + n / 64, 128 + n % 64]
  else if n < 65536 then [224 + n / 4096, 128 + (n / 64) % 64, 128 + n % 64]
  else [240 + n / 262144, 128 + (n / 4096) % 64, 128 + (n / 64) % 64, 128 + n % 64]

/-- Uppercase hexadecimal digit for `n < 16`. -/
def hexDigitChar (n : Nat) : Char :=
  if n < 10 then Char.ofNat (48 + n) else Char.ofNat (55 + n)

/-- `%XX` encoding of one byte. -/
def percentEncode (b : Nat) : List Char :=
  ['%', hexDigitChar (b / 16), hexDigitChar (b % 16)]

/-- Characters `encodeURIComponent` leaves unescaped. -/
def isUnreservedChar (c : Char) : Bool :=
  (65 ≤ c.toNat && c.toNat ≤ 90) || (97 ≤ c.toNat && c.toNat ≤ 122) ||
  (48 ≤ c.toNat && c.toNat ≤ 57) ||
  c = '-' || c = '_' || c = '.' || c = '!' || c = '~' || c = '*' ||
  c = Char.ofNat 39 || c = '(' || c = ')'

/-- The JS builtin `encodeURIComponent`. -/
def encodeURIComponent (s : String) : String :=
  String.mk (s.data.flatMap fun c =>
    if isUnreservedChar c then [c] else (utf8Bytes c.toNat).flatMap percentEncode)

/-! ### The fetch core `fastApi` (bot.js lines 12-31) -/

/-- Everything observable about one `fastApi` call: the value returned or the
error thrown, the cache map afterwards, and the HTTP requests issued in order,
each with its timeout in milliseconds. -/
structure FetchOutcome (α : Type) where
  result : Except Unit α
  cache : Cache α
  requests : List (String × Nat)

/-- The `try { ... } catch { ... }` block of `fastApi` (bot.js lines 21-30):
primary request with a 5000 ms timeout, on failure one fallback request to the
proxy with an 8000 ms timeout, caching any success under the original `url`. -/
def tryFetch (proxyApiUrl : String) (net : String → Nat → Option α)
    (c : Cache α) (now : Int) (url : String) : FetchOutcome α :=
  match net url 5000 with
  | some res => ⟨Except.ok res, setEntry c url ⟨now, res⟩, [(url, 5000)]⟩
  | none =>
    let proxyUrl := proxyApiUrl ++ encodeURIComponent url
    match net proxyUrl 8000 with
    | some res =>
      ⟨Except.ok res, setEntry c url ⟨now, res⟩, [(url, 5000), (proxyUrl, 8000)]⟩
    | none => ⟨Except.error (), c, [(url, 5000), (proxyUrl, 8000)]⟩

/-- `async function fastApi(url)` (bot.js lines 12-31): capture `now`, serve a
cache entry younger than `CACHE_TTL`, delete an expired entry, then fetch. -/
def fastApi (proxyApiUrl : String) (net : String → Nat → Option α)
    (c : Cache α) (now : Int) (url : String) : FetchOutcome α :=
  match getEntry c url with
  | some e =>
    if now - e.time < CACHE_TTL then ⟨Except.ok e.data, c, []⟩
    else tryFetch proxyApiUrl net (delEntry c url) now url
  | none => tryFetch proxyApiUrl net c now url

/-- The freshness test of bot.js line 17, for an entry checked at time `t`. -/
def freshAt (t : Int) (e : CacheEntry α) : Bool :=
  decide (t - e.time < CACHE_TTL)

/-! ### Association-list lemmas about the cache operations -/

theorem getEntry_setEntry_self (c : Cache α) (url : String) (e : CacheEntry α) :
    getEntry (setEntry c url e) url = some e := by
  induction c with
  | nil => simp [setEntry, getEntry]
  | cons p c ih =>
    by_cases hp : p.1 = url <;> simp [setEntry, getEntry, hp, ih]

theorem getEntry_setEntry_ne (c : Cache α) (url u : String) (e : CacheEntry α)
    (hne : u ≠ url) : getEntry (setEntry c url e) u = getEntry c u := by
  induction c with
  | nil => simp [setEntry, getEntry, Ne.symm hne]
  | cons p c ih =>
    by_cases hp : p.1 = url
    · subst hp
      simp [setEntry, getEntry, Ne.symm hne]
    · simp [setEntry, getEntry, hp, ih]

theorem getEntry_delEntry_self (c : Cache α) (url : String) :
    getEntry (delEntry c url) url = none := by
  induction c with
  | nil => rfl
  | cons p c ih =>
    by_cases hp : p.1 = url <;> simp [delEntry, getEntry, hp, ih]

theorem getEntry_delEntry_ne (c : Cache α) (url u : String)
    (hne : u ≠ url) : getEntry (delEntry c url) u = getEntry c u := by
  induction c with
  | nil => rfl
  | cons p c ih =>
    by_cases hp : p.1 = url
    · subst hp
      simp [delEntry, getEntry, Ne.symm hne, ih]
    · simp [delEntry, getEntry, hp, ih]

theorem delEntry_eq_of_none (c : Cache α) (url : String)
    (h : getEntry c url = none) : delEntry c url = c := by
  induction c with
  | nil => rfl
  | cons p c ih =>
    by_cases hp : p.1 = url
    · simp [getEntry, hp] at h
    · simp only [getEntry, hp, if_false] at h
      simp [delEntry, hp, ih h]

/-! ### Reduction lemmas for `fastApi` -/

theorem tryFetch_primary_ok (proxyApiUrl : String) (net : String → Nat → Option α)
    (c : Cache α) (now : Int) (url : String) (r : α)
    (hp : net url 5000 = some r) :
    tryFetch proxyApiUrl net c now url =
      ⟨Except.ok r, setEntry c url ⟨now, r⟩, [(url, 5000)]⟩ := by
  unfold tryFetch
  rw [hp]

theorem tryFetch_fallback_ok (proxyApiUrl : String) (net : String → Nat → Option α)
    (c : Cache α) (now : Int) (url : String) (r : α)
    (hp : net url 5000 = none)
    (hf : net (proxyApiUrl ++ encodeURIComponent url) 8000 = some r) :
    tryFetch proxyApiUrl net c now url =
      ⟨Except.ok r, setEntry c url ⟨now, r⟩,
        [(url, 5000), (proxyApiUrl ++ encodeURIComponent url, 8000)]⟩ := by
  unfold tryFetch
  rw [hp]
  simp only [hf]

theorem tryFetch_both_fail (proxyApiUrl : String) (net : String → Nat → Option α)
    (c : Cache α) (now : Int) (url : String)
    (hp : net url 5000 = none)
    (hf : net (proxyApiUrl ++ encodeURIComponent url) 8000 = none) :
    tryFetch proxyApiUrl net c now url =
      ⟨Except.error (), c, [(url, 5000), (proxyApiUrl ++ encodeURIComponent url, 8000)]⟩ := by
  unfold tryFetch
  rw [hp]
  simp only [hf]

/-- When no entry for `url` is fresh at `now`, `fastApi` reduces to the
fetch attempt on the cache with any stale entry for `url` deleted. -/
theorem fastApi_miss (proxyApiUrl : String) (net : String → Nat → Option α)
    (c : Cache α) (now : Int) (url : String)
    (hmiss : ∀ e, getEntry c url = some e → ¬(now - e.time < CACHE_TTL)) :
    fastApi proxyApiUrl net c now url =
      tryFetch proxyApiUrl net (delEntry c url) now url := by
  unfold fastApi
  cases hc : getEntry c url with
  | none => rw [delEntry_eq_of_none c url hc]
  | some e =>
    have h := hmiss e hc
    simp only [h, if_false]

/-! ### Claim C1 -/

/-- Claim C1: for every URL with a cache entry whose age at call time is
strictly below the 10-minute TTL, `fastApi url` returns the stored payload,
issues no upstream request (neither primary nor fallback), and leaves the
cache map unchanged. -/
theorem fastApi_fresh_hit (proxyApiUrl : String) (net : String → Nat → Option α)
    (c : Cache α) (now : Int) (url : String) (e : CacheEntry α)
    (hget : getEntry c url = some e) (hfresh : now - e.time < CACHE_TTL) :
    fastApi proxyApiUrl net c now url = ⟨Except.ok e.data, c, []⟩ := by
  unfold fastApi
  rw [hget]
  simp [hfresh]

/-- Witness for C1 at a concrete cache, clock and URL. -/
theorem fastApi_fresh_hit_witness :
    fastApi "proxy/" (fun _ _ => none) [("u", ⟨0, 42⟩)] 1 "u" =
      ⟨Except.ok 42, [("u", (⟨0, 42⟩ : CacheEntry Nat))], []⟩ :=
  fastApi_fresh_hit "proxy/" (fun _ _ => none) [("u", ⟨0, 42⟩)] 1 "u" ⟨0, 42⟩
    (by decide) (by decide)

/-! ### Claim C2 -/

/-- Claim C2: when no fresh cache entry exists and the primary request fails,
`fastApi` issues exactly one fallback request, targeting the proxy base with
the percent-encoded original URL appended and an 8000 ms timeout (the primary
used 5000 ms); on fallback success the response is returned and cached under
the original URL key, every other key being untouched. -/
theorem fastApi_fallback_success (proxyApiUrl : String) (net : String → Nat → Option α)
    (c : Cache α) (now : Int) (url : String) (r : α)
    (hmiss : ∀ e, getEntry c url = some e → ¬(now - e.time < CACHE_TTL))
    (hp : net url 5000 = none)
    (hf : net (proxyApiUrl ++ encodeURIComponent url) 8000 = some r) :
    (fastApi proxyApiUrl net c now url).requests =
      [(url, 5000), (proxyApiUrl ++ encodeURIComponent url, 8000)] ∧
    (fastApi proxyApiUrl net c now url).result = Except.ok r ∧
    getEntry (fastApi proxyApiUrl net c now url).cache url = some ⟨now, r⟩ ∧
    ∀ u, u ≠ url → getEntry (fastApi proxyApiUrl net c now url).cache u = getEntry c u := by
  rw [fastApi_miss _ _ _ _ _ hmiss, tryFetch_fallback_ok _ _ _ _ _ _ hp hf]
  refine ⟨rfl, rfl, getEntry_setEntry_self _ _ _, fun u hu => ?_⟩
  rw [getEntry_setEntry_ne _ _ _ _ hu, getEntry_delEntry_ne _ _ _ hu]

/-- Witness for C2 at a concrete network and URL. -/
theorem fastApi_fallback_success_witness :
    (fastApi "proxy/" (fun s _ => if s = "proxy/u" then some 7 else none)
        ([] : Cache Nat) 0 "u").requests =
      [("u", 5000), ("proxy/" ++ encodeURIComponent "u", 8000)] ∧
    (fastApi "proxy/" (fun s _ => if s = "proxy/u" then some 7 else none)
        ([] : Cache Nat) 0 "u").result = Except.ok 7 ∧
    getEntry (fastApi "proxy/" (fun s _ => if s = "proxy/u" then some 7 else none)
        ([] : Cache Nat) 0 "u").cache "u" = some ⟨0, 7⟩ :=
  ⟨(fastApi_fallback_success "proxy/" (fun s _ => if s = "proxy/u" then some 7 else none)
      [] 0 "u" 7 (fun _ h => Option.noConfusion h) (by decide) (by decide)).1,
   (fastApi_fallback_success "proxy/" (fun s _ => if s = "proxy/u" then some 7 else none)
      [] 0 "u" 7 (fun _ h => Option.noConfusion h) (by decide) (by decide)).2.1,
   (fastApi_fallback_success "proxy/" (fun s _ => if s = "proxy/u" then some 7 else none)
      [] 0 "u" 7 (fun _ h => Option.noConfusion h) (by decide) (by decide)).2.2.1⟩

/-! ### Claim C3 -/

/-- Claim C3: when no fresh cache entry exists and both the primary and the
fallback request fail, `fastApi` signals an error, the cache holds no entry
for the URL afterwards, every other key is untouched, and when no entry for
the URL existed beforehand the cache map is exactly unchanged. -/
theorem fastApi_double_failure (proxyApiUrl : String) (net : String → Nat → Option α)
    (c : Cache α) (now : Int) (url : String)
    (hmiss : ∀ e, getEntry c url = some e → ¬(now - e.time < CACHE_TTL))
    (hp : net url 5000 = none)
    (hf : net (proxyApiUrl ++ encodeURIComponent url) 8000 = none) :
    (fastApi proxyApiUrl net c now url).result = Except.error () ∧
    getEntry (fastApi proxyApiUrl net c now url).cache url = none ∧
    (∀ u, u ≠ url → getEntry (fastApi proxyApiUrl net c now url).cache u = getEntry c u) ∧
    (getEntry c url = none → (fastApi proxyApiUrl net c now url).cache = c) := by
  rw [fastApi_miss _ _ _ _ _ hmiss, tryFetch_both_fail _ _ _ _ _ hp hf]
  exact ⟨rfl, getEntry_delEntry_self _ _, fun u hu => getEntry_delEntry_ne _ _ _ hu,
    fun h => delEntry_eq_of_none _ _ h⟩

/-- Witness for C3 at a concrete network and URL. -/
theorem fastApi_double_failure_witness :
    (fastApi "proxy/" (fun _ _ => none) ([] : Cache Nat) 0 "u").result = Except.error () ∧
    getEntry (fastApi "proxy/" (fun _ _ => none) ([] : Cache Nat) 0 "u").cache "u" = none ∧
    (fastApi "proxy/" (fun _ _ => none) ([] : Cache Nat) 0 "u").cache = [] :=
  ⟨(fastApi_double_failure "proxy/" (fun _ _ => none) [] 0 "u"
      (fun _ h => Option.noConfusion h) rfl rfl).1,
   (fastApi_double_failure "proxy/" (fun _ _ => none) [] 0 "u"
      (fun _ h => Option.noConfusion h) rfl rfl).2.1,
   (fastApi_double_failure "proxy/" (fun _ _ => none) [] 0 "u"
      (fun _ h => Option.noConfusion h) rfl rfl).2.2.2 rfl⟩

/-! ### Claim C4 -/

/-- Claim C4: for a URL whose cache entry is at least `CACHE_TTL` old,
`fastApi` performs a new upstream call (the primary request is issued first),
the expired timestamp strictly precedes `now`, and whenever the call succeeds
the cache afterwards holds an entry for the URL timestamped `now`, strictly
later than the expired one. -/
theorem fastApi_stale_refresh (proxyApiUrl : String) (net : String → Nat → Option α)
    (c : Cache α) (now : Int) (url : String) (e : CacheEntry α)
    (hget : getEntry c url = some e) (hstale : ¬(now - e.time < CACHE_TTL)) :
    (fastApi proxyApiUrl net c now url).requests.head? = some (url, 5000) ∧
    e.time < now ∧
    ∀ d, (fastApi proxyApiUrl net c now url).result = Except.ok d →
      getEntry (fastApi proxyApiUrl net c now url).cache url = some ⟨now, d⟩ := by
  have hmiss : ∀ e2, getEntry c url = some e2 → ¬(now - e2.time < CACHE_TTL) := by
    intro e2 h2
    rw [hget] at h2
    cases h2
    exact hstale
  have htime : e.time < now := by
    unfold CACHE_TTL at hstale
    omega
  rw [fastApi_miss _ _ _ _ _ hmiss]
  cases hp : net url 5000 with
  | some r =>
    rw [tryFetch_primary_ok _ _ _ _ _ _ hp]
    refine ⟨rfl, htime, fun d hd => ?_⟩
    have hrd : Except.ok (ε := Unit) r = Except.ok d := hd
    cases hrd
    exact getEntry_setEntry_self _ _ _
  | none =>
    cases hf : net (proxyApiUrl ++ encodeURIComponent url) 8000 with
    | some r =>
      rw [tryFetch_fallback_ok _ _ _ _ _ _ hp hf]
      refine ⟨rfl, htime, fun d hd => ?_⟩
      have hrd : Except.ok (ε := Unit) r = Except.ok d := hd
      cases hrd
      exact getEntry_setEntry_self _ _ _
    | none =>
      rw [tryFetch_both_fail _ _ _ _ _ hp hf]
      exact ⟨rfl, htime, fun d hd => nomatch hd⟩

/-- Witness for C4: an entry exactly `CACHE_TTL` old is refreshed. -/
theorem fastApi_stale_refresh_witness :
    (fastApi "proxy/" (fun _ _ => some 9) [("u", (⟨0, 1⟩ : CacheEntry Nat))]
        600000 "u").requests.head? = some ("u", 5000) ∧
    getEntry (fastApi "proxy/" (fun _ _ => some 9) [("u", (⟨0, 1⟩ : CacheEntry Nat))]
        600000 "u").cache "u" = some ⟨600000, 9⟩ :=
  ⟨(fastApi_stale_refresh "proxy/" (fun _ _ => some 9) [("u", ⟨0, 1⟩)] 600000 "u"
      ⟨0, 1⟩ (by decide) (by decide)).1,
   (fastApi_stale_refresh "proxy/" (fun _ _ => some 9) [("u", ⟨0, 1⟩)] 600000 "u"
      ⟨0, 1⟩ (by decide) (by decide)).2.2 9 rfl⟩

/-! ### Claim C9 -/

/-- Claim C9: the timestamp stored with a cache entry is the clock value
captured on entry to `fastApi`, before any network attempt, so an entry cached
through the fallback path carries the time `now` at which the call started.
Consequently, if its store completed `d > 0` milliseconds after `now` (the
failed primary attempt plus the fallback fetch), the entry passes the line-17
freshness test at a later instant `now + d + w` exactly when `w < CACHE_TTL - d`,
a remaining window strictly shorter than the full `CACHE_TTL`. -/
theorem fastApi_fallback_entry_time (proxyApiUrl : String) (net : String → Nat → Option α)
    (c : Cache α) (now : Int) (url : String) (r : α)
    (hmiss : ∀ e, getEntry c url = some e → ¬(now - e.time < CACHE_TTL))
    (hp : net url 5000 = none)
    (hf : net (proxyApiUrl ++ encodeURIComponent url) 8000 = some r) :
    getEntry (fastApi proxyApiUrl net c now url).cache url = some ⟨now, r⟩ ∧
    ∀ d w : Int, 0 < d → 0 ≤ w →
      ((freshAt (now + d + w) (⟨now, r⟩ : CacheEntry α)) = true ↔ w < CACHE_TTL - d) ∧
      CACHE_TTL - d < CACHE_TTL := by
  constructor
  · rw [fastApi_miss _ _ _ _ _ hmiss, tryFetch_fallback_ok _ _ _ _ _ _ hp hf]
    exact getEntry_setEntry_self _ _ _
  · intro d w hd hw
    constructor
    · unfold freshAt
      simp only [decide_eq_true_eq]
      omega
    · omega

/-- Witness for C9 at a concrete network and URL. -/
theorem fastApi_fallback_entry_time_witness :
    getEntry (fastApi "proxy/" (fun s _ => if s = "proxy/u" then some 7 else none)
        ([] : Cache Nat) 0 "u").cache "u" = some ⟨0, 7⟩ ∧
    ((freshAt (0 + 1 + 599998) (⟨0, 7⟩ : CacheEntry Nat)) = true ↔
      (599998 : Int) < CACHE_TTL - 1) :=
  ⟨(fastApi_fallback_entry_time "proxy/" (fun s _ => if s = "proxy/u" then some 7 else none)
      [] 0 "u" 7 (fun _ h => Option.noConfusion h) (by decide) (by decide)).1,
   ((fastApi_fallback_entry_time "proxy/" (fun s _ => if s = "proxy/u" then some 7 else none)
      [] 0 "u" 7 (fun _ h => Option.noConfusion h) (by decide) (by decide)).2 1 599998
     (by decide) (by decide)).1⟩

/-! ### Query classifier (bot.js lines 34-46) -/

/-- `/pat/i.test(text)` for a plain lowercase alternative `pat`: does `text`
contain `pat` as a substring, case-insensitively. -/
def containsCI (text pat : String) : Bool :=
  let cs := text.data.map Char.toLower
  (List.range (cs.length + 1)).any fun i => pat.data.isPrefixOf (cs.drop i)

/-- `/movie|film/i.test(text)` (bot.js lines 34-36). -/
def hasMovieKeyword (text : String) : Bool :=
  containsCI text "movie" || containsCI text "film"

/-- `/tv|series|show/i.test(text)` (bot.js lines 38-40). -/
def hasTvKeyword (text : String) : Bool :=
  containsCI text "tv" || containsCI text "series" || containsCI text "show"

/-- The endpoint decision of bot.js lines 97-99: start from `multi`, then the
two sequential reassignments. -/
def decideEndpoint (rawText : String) : String :=
  let e := "multi"
  let e := if hasMovieKeyword rawText && !hasTvKeyword rawText then "movie" else e
  if hasTvKeyword rawText && !hasMovieKeyword rawText then "tv" else e

/-! ### `cleanQuery` (bot.js lines 42-46) -/

/-- The alternatives of the keyword regex, in source order. -/
def keywords : List String :=
  ["movie", "film", "tv", "series", "show", "link", "watch", "download"]

/-- Length of the first regex alternative matching at the head of `cs`,
case-insensitively, if any (JS tries alternatives left to right). -/
def keywordMatchLen (cs : List Char) : Option Nat :=
  keywords.findSome? fun k =>
    if k.data.isPrefixOf (cs.map Char.toLower) then some k.data.length else none

/-- One global pass of `text.replace(/movie|film|tv|series|show|link|watch|download/gi, '')`:
scan left to right, at each position delete the first matching alternative and
resume after it, otherwise keep the character. The fuel argument only bounds
the recursion depth; each step consumes at least one character, so fuel equal
to the list length (as `removeKeywords` passes) is never exhausted. -/
def removeKeywordsAux : Nat → List Char → List Char
  | 0, cs => cs
  | _ + 1, [] => []
  | fuel + 1, c :: cs =>
    match keywordMatchLen (c :: cs) with
    | some n => removeKeywordsAux fuel (cs.drop (n - 1))
    | none => c :: removeKeywordsAux fuel cs

def removeKeywords (cs : List Char) : List Char :=
  removeKeywordsAux cs.length cs

/-- JS `String.prototype.trim`: drop whitespace from both ends. -/
def jsTrim (cs : List Char) : List Char :=
  ((cs.dropWhile Char.isWhitespace).reverse.dropWhile Char.isWhitespace).reverse

def trimStr (s : String) : String := String.mk (jsTrim s.data)

/-- `cleanQuery` (bot.js lines 42-46): delete every keyword occurrence, then
trim the ends. -/
def cleanQuery (text : String) : String :=
  String.mk (jsTrim (removeKeywords text.data))

/-- No position of `cs` starts a keyword occurrence. -/
def keywordFree : List Char → Bool
  | [] => true
  | c :: cs => (keywordMatchLen (c :: cs)).isNone && keywordFree cs

theorem removeKeywordsAux_of_keywordFree (fuel : Nat) (cs : List Char)
    (h : keywordFree cs = true) : removeKeywordsAux fuel cs = cs := by
  induction fuel generalizing cs with
  | zero => rfl
  | succ fuel ih =>
    cases cs with
    | nil => rfl
    | cons c cs =>
      simp only [keywordFree, Bool.and_eq_true, Option.isNone_iff_eq_none] at h
      simp only [removeKeywordsAux, h.1]
      rw [ih cs h.2]

/-! ### Claim C5 -/

/-- Claim C5: if the raw text matches the movie pattern and not the tv pattern
the endpoint is `movie`; if it matches the tv pattern and not the movie
pattern it is `tv`; if it matches both or neither it is `multi`. -/
theorem decideEndpoint_spec (text : String) :
    (hasMovieKeyword text = true ∧ hasTvKeyword text = false →
      decideEndpoint text = "movie") ∧
    (hasTvKeyword text = true ∧ hasMovieKeyword text = false →
      decideEndpoint text = "tv") ∧
    (hasMovieKeyword text = hasTvKeyword text → decideEndpoint text = "multi") := by
  cases hm : hasMovieKeyword text <;> cases ht : hasTvKeyword text <;>
    simp [decideEndpoint, hm, ht]

/-- Witness for C5 on the spec's three classifier examples. -/
theorem decideEndpoint_spec_witness :
    decideEndpoint "rrr movie" = "movie" ∧ decideEndpoint "dark tv" = "tv" ∧
    decideEndpoint "squid" = "multi" :=
  ⟨(decideEndpoint_spec "rrr movie").1 (by decide),
   (decideEndpoint_spec "dark tv").2.1 (by decide),
   (decideEndpoint_spec "squid").2.2 (by decide)⟩

/-! ### Claim C6 -/

/-- Claim C6 counterexample: the code only trims the ends of the string, so a
keyword in the interior leaves the whitespace on both of its sides in place,
and "breaking watch bad" cleans to "breaking␣␣bad" (two spaces), not
"breaking bad". -/
theorem cleanQuery_interior_keyword_counterexample :
    cleanQuery "breaking watch bad" = "breaking  bad" ∧
    cleanQuery "breaking watch bad" ≠ "breaking bad" := by
  constructor
  · decide
  · decide

/-- Claim C6 amended: the cleaned query is the input with every
case-insensitive occurrence of the keywords movie, film, tv, series, show,
link, watch, download deleted (first matching alternative, scanning left to
right) and with leading and trailing whitespace trimmed; whitespace around an
interior removed keyword is preserved (so it may leave doubled spaces), while
keyword-free text is only trimmed, and keywords at the ends leave no doubled
whitespace: "watch breaking bad show" cleans to "breaking bad". -/
theorem cleanQuery_amended (text : String) :
    (keywordFree text.data = true → cleanQuery text = trimStr text) ∧
    cleanQuery "watch breaking bad show" = "breaking bad" ∧
    cleanQuery "MOVIE rrr" = "rrr" ∧
    cleanQuery "breaking watch bad" = "breaking  bad" := by
  refine ⟨?_, by decide, by decide, by decide⟩
  intro h
  unfold cleanQuery trimStr removeKeywords
  rw [removeKeywordsAux_of_keywordFree _ _ h]

/-- Witness for the amended C6 on keyword-free input. -/
theorem cleanQuery_amended_witness :
    cleanQuery "hello" = trimStr "hello" ∧
    cleanQuery "watch breaking bad show" = "breaking bad" :=
  ⟨(cleanQuery_amended "hello").1 (by decide), (cleanQuery_amended "hello").2.1⟩

/-! ### Selection tokens (bot.js lines 140-143 and 157-167) -/

theorem string_ext (a b : String) (h : a.data = b.data) : a = b := by
  cases a
  cases b
  exact congrArg String.mk h

theorem strData_append (a b : String) : (a ++ b).data = a.data ++ b.data := by
  cases a
  cases b
  rfl

theorem strMk_data (s : String) : String.mk s.data = s := by
  cases s
  rfl

/-- `callback_data: select_${type}_${r.id}` (bot.js line 142). -/
def mkCallbackData (ty : String) (id : Nat) : String :=
  "select_" ++ ty ++ "_" ++ Nat.repr id

/-- JS `data.split('_')` for the single-character separator. -/
def splitUnderscore : List Char → List (List Char)
  | [] => [[]]
  | c :: cs =>
    if c = '_' then [] :: splitUnderscore cs
    else
      match splitUnderscore cs with
      | [] => [[c]]
      | h :: t => (c :: h) :: t

def splitParts (s : String) : List String :=
  (splitUnderscore s.data).map String.mk

/-- `const [, type, id] = data.split('_')` (bot.js line 159). -/
def parseSelect (data : String) : Option String × Option String :=
  ((splitParts data).get? 1, (splitParts data).get? 2)

/-- The detail endpoint path `/${type}/${id}`. -/
def detailPath (ty id : String) : String :=
  "/" ++ ty ++ "/" ++ id

/-- The detail request URL of bot.js line 167. -/
def detailUrl (apiKey ty id : String) : String :=
  "https://api.themoviedb.org/3/" ++ ty ++ "/" ++ id ++ "?api_key=" ++ apiKey

/-- Decoding a callback token into the detail endpoint path the handler hits. -/
def decodeToDetailPath (data : String) : Option String :=
  match parseSelect data with
  | (some ty, some id) => some (detailPath ty id)
  | _ => none

theorem splitUnderscore_eq_single (a : List Char) (ha : '_' ∉ a) :
    splitUnderscore a = [a] := by
  induction a with
  | nil => rfl
  | cons c cs ih =>
    simp only [List.mem_cons, not_or] at ha
    unfold splitUnderscore
    rw [if_neg (fun hc => ha.1 hc.symm), ih ha.2]

theorem splitUnderscore_append (a b : List Char) (ha : '_' ∉ a) :
    splitUnderscore (a ++ '_' :: b) = a :: splitUnderscore b := by
  induction a with
  | nil => simp [splitUnderscore]
  | cons c cs ih =>
    simp only [List.mem_cons, not_or] at ha
    simp only [List.cons_append, splitUnderscore, List.append_eq]
    rw [if_neg (fun hc => ha.1 hc.symm), ih ha.2]

theorem toDigitsCore_mem (b fuel : Nat) :
    ∀ (n : Nat) (ds : List Char) (c : Char), c ∈ Nat.toDigitsCore b fuel n ds →
      c ∈ ds ∨ ∃ m, c = Nat.digitChar m := by
  induction fuel with
  | zero =>
    intro n ds c hc
    exact Or.inl hc
  | succ fuel ih =>
    intro n ds c hc
    simp only [Nat.toDigitsCore] at hc
    by_cases hz : n / b = 0
    · rw [if_pos hz] at hc
      rcases List.mem_cons.mp hc with h | h
      · exact Or.inr ⟨n % b, h⟩
      · exact Or.inl h
    · rw [if_neg hz] at hc
      rcases ih _ _ _ hc with h | h
      · rcases List.mem_cons.mp h with h2 | h2
        · exact Or.inr ⟨n % b, h2⟩
        · exact Or.inl h2
      · exact Or.inr h

theorem digitChar_ne_underscore (m : Nat) : Nat.digitChar m ≠ '_' := by
  rcases Nat.lt_or_ge m 16 with h | h
  · interval_cases m <;> decide
  · unfold Nat.digitChar
    repeat rw [if_neg (by omega)]
    decide

theorem underscore_not_mem_repr (n : Nat) : '_' ∉ (Nat.repr n).data := by
  intro hc
  have hmem : '_' ∈ Nat.toDigitsCore 10 (n + 1) n [] := by
    simpa [Nat.repr, Nat.toDigits, List.asString] using hc
  rcases toDigitsCore_mem 10 (n + 1) n [] _ hmem with h | ⟨m, h⟩
  · simp at h
  · exact digitChar_ne_underscore m h.symm

theorem splitParts_mkCallbackData (ty : String) (id : Nat) (hty : '_' ∉ ty.data) :
    splitParts (mkCallbackData ty id) = ["select", ty, Nat.repr id] := by
  unfold splitParts mkCallbackData
  have hdata : ("select_" ++ ty ++ "_" ++ Nat.repr id).data =
      "select".data ++ '_' :: (ty.data ++ '_' :: (Nat.repr id).data) := by
    rw [strData_append, strData_append, strData_append]
    have h1 : ("select_" : String).data = "select".data ++ ['_'] := rfl
    have h2 : ("_" : String).data = ['_'] := rfl
    rw [h1, h2]
    simp [List.append_assoc]
  rw [hdata, splitUnderscore_append _ _ (by decide), splitUnderscore_append _ _ hty,
    splitUnderscore_eq_single _ (underscore_not_mem_repr id)]
  simp [strMk_data]

/-! ### Claim C7 -/

/-- Claim C7: a selection token built from kind `ty ∈ {movie, tv}` and a
numeric id decodes back through `data.split('_')` to exactly that kind and id,
and hence to the detail endpoint path `/<kind>/<id>` embedded in the detail
request URL. -/
theorem select_token_roundTrip (ty : String) (id : Nat)
    (hty : ty = "movie" ∨ ty = "tv") :
    parseSelect (mkCallbackData ty id) = (some ty, some (Nat.repr id)) ∧
    decodeToDetailPath (mkCallbackData ty id) =
      some ("/" ++ ty ++ "/" ++ Nat.repr id) ∧
    ∀ apiKey, detailUrl apiKey ty (Nat.repr id) =
      "https://api.themoviedb.org/3" ++ detailPath ty (Nat.repr id) ++
        "?api_key=" ++ apiKey := by
  have hty' : '_' ∉ ty.data := by
    rcases hty with h | h <;> subst h <;> decide
  have hsp := splitParts_mkCallbackData ty id hty'
  refine ⟨?_, ?_, ?_⟩
  · unfold parseSelect
    rw [hsp]
    rfl
  · unfold decodeToDetailPath parseSelect
    rw [hsp]
    rfl
  · intro apiKey
    apply string_ext
    unfold detailUrl detailPath
    repeat rw [strData_append]
    have h1 : ("https://api.themoviedb.org/3/" : String).data =
        ("https://api.themoviedb.org/3" : String).data ++ ['/'] := rfl
    have h2 : ("/" : String).data = ['/'] := rfl
    rw [h1, h2]
    simp [List.append_assoc]

/-- Witness for C7: `select_movie_603` round-trips to `/movie/603`. -/
theorem select_token_roundTrip_witness :
    parseSelect (mkCallbackData "movie" 603) = (some "movie", some (Nat.repr 603)) ∧
    decodeToDetailPath "select_movie_603" = some "/movie/603" ∧
    detailUrl "k" "movie" (Nat.repr 603) =
      "https://api.themoviedb.org/3" ++ detailPath "movie" (Nat.repr 603) ++
        "?api_key=" ++ "k" :=
  ⟨(select_token_roundTrip "movie" 603 (Or.inl rfl)).1,
   by decide,
   (select_token_roundTrip "movie" 603 (Or.inl rfl)).2.2 "k"⟩

/-! ### Search results and the selection keyboard (bot.js lines 130-144) -/

/-- The fields of a TMDB search-result entry that the handler reads. A missing
JSON field is `none`. -/
structure SearchResult where
  id : Nat
  media_type : Option String
  title : Option String
  name : Option String
  release_date : Option String
  first_air_date : Option String
deriving DecidableEq

/-- One inline-keyboard button: label text and callback data. -/
structure Button where
  text : String
  callback_data : String
deriving DecidableEq

/-- JS template-literal stringification of a possibly-undefined string. -/
def jsStr : Option String → String
  | none => "undefined"
  | some s => s

/-- JS truthiness test of a possibly-undefined string: `undefined` and the
empty string are falsy. -/
def strFalsy : Option String → Bool
  | none => true
  | some s => s == ""

/-- One result button (bot.js lines 133-143): `type = r.media_type || endpoint`,
year from the kind-appropriate date sliced to 4 characters, label
`${glyph} ${r.title || r.name} (${year || 'N/A'})`, token `select_${type}_${r.id}`. -/
def buttonOf (endpoint : String) (r : SearchResult) : Button :=
  let ty := if strFalsy r.media_type then endpoint else jsStr r.media_type
  let year : Option String :=
    if ty = "movie" then r.release_date.map (fun s => String.mk (s.data.take 4))
    else r.first_air_date.map (fun s => String.mk (s.data.take 4))
  { text :=
      (if ty = "movie" then "🎬" else "📺") ++ " " ++
        (if strFalsy r.title then jsStr r.name else jsStr r.title) ++ " (" ++
        (if strFalsy year then "N/A" else jsStr year) ++ ")",
    callback_data := "select_" ++ ty ++ "_" ++ Nat.repr r.id }

/-- The keyboard of bot.js lines 130-144: `.filter(r => r.media_type !== 'person')`,
`.slice(0, 10)`, `.map(...)`. -/
def buttons (endpoint : String) (results : List SearchResult) : List Button :=
  ((results.filter (fun r => !(r.media_type == some "person"))).take 10).map
    (buttonOf endpoint)

/-- The label as claim C8 words it: media-kind glyph, the title, and the first
four characters of the kind-appropriate release date, `N/A` when absent. -/
def specLabel (endpoint : String) (r : SearchResult) : Button :=
  let kind := match r.media_type with
    | some t => t
    | none => endpoint
  let date := if kind = "movie" then r.release_date else r.first_air_date
  { text :=
      (if kind = "movie" then "🎬" else "📺") ++ " " ++
        (match r.title with
         | some t => t
         | none => jsStr r.name) ++ " (" ++
        (match date with
         | some d3 => String.mk (d3.data.take 4)
         | none => "N/A") ++ ")",
    callback_data := "select_" ++ kind ++ "_" ++ Nat.repr r.id }

/-- The selection list as claim C8 describes it: the non-person entries in
their original order, truncated to at most the first `n`, each labeled. -/
def specSelectionList (endpoint : String) : Nat → List SearchResult → List Button
  | _, [] => []
  | n, r :: rs =>
    if r.media_type = some "person" then specSelectionList endpoint n rs
    else
      match n with
      | 0 => []
      | m + 1 => specLabel endpoint r :: specSelectionList endpoint m rs

/-- Well-formed entry: no present-but-empty string field among those the label
reads (TMDB marks an unknown value by omitting the field). -/
def wfResult (r : SearchResult) : Prop :=
  r.media_type ≠ some "" ∧ r.title ≠ some "" ∧
  r.release_date ≠ some "" ∧ r.first_air_date ≠ some ""

instance (r : SearchResult) : Decidable (wfResult r) := by
  unfold wfResult
  infer_instance

theorem buttonOf_eq_specLabel (endpoint : String) (r : SearchResult)
    (hwf : wfResult r) : buttonOf endpoint r = specLabel endpoint r := by
  obtain ⟨hm, ht, hr, hf⟩ := hwf
  have hkind : (if strFalsy r.media_type then endpoint else jsStr r.media_type) =
      (match r.media_type with | some t => t | none => endpoint) := by
    cases hmt : r.media_type with
    | none => rfl
    | some t =>
      have htne : t ≠ "" := by
        rintro rfl
        exact hm hmt
      simp [strFalsy, jsStr, htne]
  have htitle : (if strFalsy r.title then jsStr r.name else jsStr r.title) =
      (match r.title with | some t => t | none => jsStr r.name) := by
    cases htt : r.title with
    | none => rfl
    | some t =>
      have htne : t ≠ "" := by
        rintro rfl
        exact ht htt
      simp [strFalsy, jsStr, htne]
  have hdate : ∀ dopt : Option String, dopt ≠ some "" →
      (if strFalsy (dopt.map (fun s => String.mk (s.data.take 4))) then "N/A"
       else jsStr (dopt.map (fun s => String.mk (s.data.take 4)))) =
      (match dopt with
       | some d3 => String.mk (d3.data.take 4)
       | none => "N/A") := by
    intro dopt hd
    cases dopt with
    | none => rfl
    | some d3 =>
      have hne : d3 ≠ "" := fun hh => hd (by rw [hh])
      have h4 : String.mk (d3.data.take 4) ≠ "" := by
        cases d3 with
        | mk l =>
          cases l with
          | nil => exact absurd rfl hne
          | cons a l =>
            intro hx
            have hdd : List.take 4 (a :: l) = [] := congrArg String.data hx
            simp at hdd
      simp [strFalsy, jsStr, Option.map, h4]
  simp only [buttonOf, specLabel]
  rw [hkind, htitle]
  by_cases hkm : (match r.media_type with | some t => t | none => endpoint) = "movie"
  · simp only [if_pos hkm]
    rw [hdate r.release_date hr]
  · simp only [if_neg hkm]
    rw [hdate r.first_air_date hf]

theorem filterCons_pos {β : Type} (p : β → Bool) (a : β) (l : List β)
    (h : p a = true) : List.filter p (a :: l) = a :: List.filter p l := by
  simp [List.filter_cons, h]

theorem filterCons_neg {β : Type} (p : β → Bool) (a : β) (l : List β)
    (h : p a = false) : List.filter p (a :: l) = List.filter p l := by
  simp [List.filter_cons, h]

theorem buttons_eq_spec_aux (endpoint : String) :
    ∀ (results : List SearchResult) (n : Nat), (∀ r ∈ results, wfResult r) →
      ((results.filter (fun r => !(r.media_type == some "person"))).take n).map
        (buttonOf endpoint) = specSelectionList endpoint n results := by
  intro results
  induction results with
  | nil =>
    intro n _
    cases n <;> rfl
  | cons r rs ih =>
    intro n hwf
    have hwfr := hwf r (List.mem_cons_self r rs)
    have hwfs : ∀ x ∈ rs, wfResult x := fun x hx => hwf x (List.mem_cons_of_mem r hx)
    by_cases hper : r.media_type = some "person"
    · have hperb : (!(r.media_type == some "person")) = false := by simp [hper]
      rw [filterCons_neg (fun q => !(q.media_type == some "person")) r rs hperb]
      simp only [specSelectionList, if_pos hper]
      exact ih n hwfs
    · have hperb : (!(r.media_type == some "person")) = true := by simp [hper]
      rw [filterCons_pos (fun q => !(q.media_type == some "person")) r rs hperb]
      simp only [specSelectionList, if_neg hper]
      cases n with
      | zero => rfl
      | succ m =>
        simp only [List.take_succ_cons, List.map_cons]
        rw [buttonOf_eq_specLabel endpoint r hwfr, ih m hwfs]

/-! ### Claim C8 -/

/-- Claim C8: for a non-empty result list of well-formed entries, the keyboard
the handler builds is exactly the claim's description — the non-person entries
in original order, truncated to the first 10, each labeled with the media-kind
glyph, the title, and the first four characters of the kind-appropriate
release date (`N/A` when absent) — and it never exceeds 10 buttons. -/
theorem buttons_spec (endpoint : String) (results : List SearchResult)
    (hne : results ≠ []) (hwf : ∀ r ∈ results, wfResult r) :
    buttons endpoint results = specSelectionList endpoint 10 results ∧
    (buttons endpoint results).length ≤ 10 := by
  constructor
  · exact buttons_eq_spec_aux endpoint results 10 hwf
  · unfold buttons
    rw [List.length_map, List.length_take]
    exact min_le_left _ _

/-- A concrete movie entry for the C8 witness. -/
def matrixResult : SearchResult :=
  { id := 603, media_type := some "movie", title := some "The Matrix",
    name := none, release_date := some "1999-03-30", first_air_date := none }

/-- Witness for C8: one well-formed movie entry, with the concrete button. -/
theorem buttons_spec_witness :
    buttons "multi" [matrixResult] = specSelectionList "multi" 10 [matrixResult] ∧
    (buttons "multi" [matrixResult]).length ≤ 10 ∧
    buttons "multi" [matrixResult] =
      [{ text := "🎬 The Matrix (1999)", callback_data := "select_movie_603" }] :=
  ⟨(buttons_spec "multi" [matrixResult] (by decide) (by decide)).1,
   (buttons_spec "multi" [matrixResult] (by decide) (by decide)).2,
   by decide⟩

/-! ### The message handler (bot.js lines 85-150) -/

/-- The replies the `message` handler can send. -/
inductive Reply where
  | emptyQuery : Reply
  | busy : Reply
  | noResults : String → Reply
  | results : String → List Button → Reply
deriving DecidableEq

/-- JS `msg.text.startsWith('/')`. -/
def startsWithSlash (s : String) : Bool :=
  match s.data with
  | [] => false
  | c :: _ => c = '/'

/-- The search URL of bot.js lines 103-107. -/
def searchUrl (apiKey endpoint query : String) : String :=
  "https://api.themoviedb.org/3/search/" ++ endpoint ++ "?query=" ++
    encodeURIComponent query ++ "&api_key=" ++ apiKey

/-- The `message` handler (bot.js lines 85-150), with the chat transport
modelled away: `msgText` is `msg.text`, and `api` maps a request URL to `some`
parsed `results` array on fetch success and to `none` on failure (an absent
`results` field collapses to the empty list, matching `!res.data?.results?.length`).
Returns `none` when the handler ignores the message, else the reply it sends. -/
def handleMessage (apiKey : String) (api : String → Option (List SearchResult))
    (msgText : String) : Option Reply :=
  if msgText == "" || startsWithSlash msgText then none
  else
    let rawText := trimStr msgText
    let query := cleanQuery rawText
    if query = "" then some Reply.emptyQuery
    else
      let endpoint := decideEndpoint rawText
      match api (searchUrl apiKey endpoint query) with
      | none => some Reply.busy
      | some results =>
        if results.length = 0 then
          some (Reply.noResults
            ("https://www.google.com/search?q=" ++ encodeURIComponent rawText))
        else some (Reply.results query (buttons endpoint results))

theorem buttons_all_person (endpoint : String) (results : List SearchResult)
    (hall : ∀ r ∈ results, r.media_type = some "person") :
    buttons endpoint results = [] := by
  unfold buttons
  have hfil : results.filter (fun r => !(r.media_type == some "person")) = [] := by
    rw [List.filter_eq_nil_iff]
    intro a ha
    simp [hall a ha]
  rw [hfil]
  rfl

/-! ### Claim C10 -/

/-- Claim C10: when the search API returns a non-empty results array whose
entries are all persons, the handler takes the non-empty branch and replies
"Results for" with an empty inline keyboard, not the no-results branch with
the Google fallback link. -/
theorem allPerson_empty_keyboard (apiKey : String)
    (api : String → Option (List SearchResult)) (msgText : String)
    (results : List SearchResult)
    (hmsg : (msgText == "" || startsWithSlash msgText) = false)
    (hquery : cleanQuery (trimStr msgText) ≠ "")
    (hapi : api (searchUrl apiKey (decideEndpoint (trimStr msgText))
        (cleanQuery (trimStr msgText))) = some results)
    (hne : results ≠ [])
    (hall : ∀ r ∈ results, r.media_type = some "person") :
    handleMessage apiKey api msgText =
      some (Reply.results (cleanQuery (trimStr msgText)) []) := by
  have hlen : results.length ≠ 0 := fun h => hne (List.length_eq_zero.mp h)
  simp only [handleMessage, hmsg, Bool.false_eq_true, if_false]
  rw [if_neg hquery, hapi]
  simp only [if_neg hlen]
  rw [buttons_all_person _ _ hall]

/-- A concrete person entry for the C10 witness. -/
def personResult : SearchResult :=
  { id := 1, media_type := some "person", title := none,
    name := some "someone", release_date := none, first_air_date := none }

/-- Witness for C10 at a concrete message and an all-person results array. -/
theorem allPerson_empty_keyboard_witness :
    handleMessage "k" (fun _ => some [personResult]) "squid" =
      some (Reply.results "squid" []) :=
  allPerson_empty_keyboard "k" (fun _ => some [personResult]) "squid" [personResult]
    (by decide) (by decide) rfl (by decide) (by decide)

end Cineflow
